import Mathlib

/-!
Shallow embedding of `instrument.py` (InstrumentChanger).

The Python module synthesizes single notes for three instruments:
`Beep` (a sine wave built over `np.linspace`), `AcousticGuitar`
(Karplus-Strong synthesis with a 200-slot delay line), and `Trumpet`
(additive synthesis of 19 harmonics, a single-pole high-pass filter and an
ADSR envelope), plus the stereo packager `Instrument.duplicateChannel`.

Samples are modelled as exact rationals where the Python code only performs
field operations, and as reals where `sin`/`pi` enter.  The white-noise
seed of the string generator is passed in explicitly as a function
`noise : ℕ → ℚ` giving the content of `np.random.standard_normal n`.
Fallible calls return `Except String`, the error string naming the Python
exception class that the corresponding operation raises.
-/

namespace InstrumentChanger

/-- `np.linspace start stop num` with the default `endpoint=True`:
`num` evenly spaced points from `start` to `stop` inclusive; a single point
is `start`, zero points is the empty list. -/
def linspace (start stop : ℚ) (num : ℕ) : List ℚ :=
  if num ≤ 1 then (List.range num).map (fun _ => start)
  else (List.range num).map
    (fun (i : ℕ) => start + (stop - start) * (i : ℚ) / ((num : ℚ) - 1))

/-- `Beep.getNote(frequency, duration, sampleRate)`:
`time = np.linspace(0, duration / sampleRate, duration)` followed by
`np.sin(frequency * 2 * np.pi * time)` (src/instrument.py lines 61-66). -/
noncomputable def Beep.getNote (frequency : ℚ) (duration : ℕ) (sampleRate : ℚ) : List ℝ :=
  (linspace 0 ((duration : ℚ) / sampleRate) duration).map
    (fun (t : ℚ) => Real.sin ((frequency : ℝ) * 2 * Real.pi * (t : ℝ)))

/-- `Instrument.duplicateChannel(channel)`: each mono sample becomes the
stereo frame `(sample / 2, sample / 2)` (src/instrument.py lines 40-44). -/
def Instrument.duplicateChannel (channel : List ℚ) : List (ℚ × ℚ) :=
  channel.map (fun sample => (sample / 2, sample / 2))

/-- Python `int()` applied to a rational value: truncation toward zero. -/
def ratTrunc (q : ℚ) : ℤ := if 0 ≤ q then ⌊q⌋ else ⌈q⌉

/-- Size argument `int(sampleRate / frequency)` passed to
`np.random.standard_normal` on src/instrument.py line 85. -/
def ringBufferSize (frequency sampleRate : ℚ) : ℤ := ratTrunc (sampleRate / frequency)

/-- Loop state of `AcousticGuitar.getBaseStringSound`: the ring buffer,
the `last` sample, the delay-line FIFO (oldest entry first) and the ring
cursor `bufferCounter`. -/
structure KSState where
  buffer : List ℚ
  last : ℚ
  delayLine : List ℚ
  counter : ℕ

/-- One iteration of the loop on src/instrument.py lines 90-107: two-tap
low-pass filter, optional feedback from a full 200-slot delay line
(pop the oldest entry, scale by 0.999, average in), then append, push,
store back into the ring buffer and advance the cursor cyclically. -/
def ksStep (s : KSState) : ℚ × KSState :=
  let lowPassed := (s.last + s.buffer.getD s.counter 0) / 2
  let current :=
    if s.delayLine.length = 200 then (lowPassed + s.delayLine.headD 0 * 0.999) / 2
    else lowPassed
  let remaining := if s.delayLine.length = 200 then s.delayLine.tail else s.delayLine
  (current,
    { buffer := s.buffer.set s.counter current
      last := current
      delayLine := remaining ++ [current]
      counter := if s.counter + 1 ≥ s.buffer.length then 0 else s.counter + 1 })

/-- Iterating `ksStep` for `duration` ticks, collecting the emitted samples. -/
def ksRun : ℕ → KSState → List ℚ
  | 0, _ => []
  | n + 1, s => (ksStep s).1 :: ksRun n (ksStep s).2

/-- The sample list built by `AcousticGuitar.getBaseStringSound` when no
exception occurs: ring buffer seeded from the noise source, `last =
buffer[0]`, empty delay line, cursor 0. -/
def stringRun (noise : ℕ → ℚ) (frequency : ℚ) (duration : ℕ) (sampleRate : ℚ) : List ℚ :=
  let buffer := (List.range (ringBufferSize frequency sampleRate).toNat).map noise
  ksRun duration { buffer := buffer, last := buffer.headD 0, delayLine := [], counter := 0 }

/-- `AcousticGuitar.getBaseStringSound(frequency, duration, sampleRate)`
(src/instrument.py lines 82-115).  `frequency = 0` raises
`ZeroDivisionError` computing `sampleRate / frequency`; a negative buffer
size makes `np.random.standard_normal` raise `ValueError`; a zero-sized
buffer makes `buffer[0]` raise `IndexError`; otherwise the loop runs and
the sample list is returned. -/
def AcousticGuitar.getBaseStringSound (noise : ℕ → ℚ) (frequency : ℚ) (duration : ℕ)
    (sampleRate : ℚ) : Except String (List ℚ) :=
  if frequency = 0 then Except.error "ZeroDivisionError"
  else if ringBufferSize frequency sampleRate < 0 then Except.error "ValueError"
  else if ringBufferSize frequency sampleRate = 0 then Except.error "IndexError"
  else Except.ok (stringRun noise frequency duration sampleRate)

/-- `AcousticGuitar.getNote` just forwards to `getBaseStringSound`
(src/instrument.py lines 117-130). -/
def AcousticGuitar.getNote (noise : ℕ → ℚ) (frequency : ℚ) (duration : ℕ)
    (sampleRate : ℚ) : Except String (List ℚ) :=
  AcousticGuitar.getBaseStringSound noise frequency duration sampleRate

/-- Spec-side comparison definition, following the spec's words for the
claim that for short durations every output sample is the two-tap low-pass
value `(last + buffer[c]) / 2` alone: the same loop with the delay-line
feedback step removed. -/
def specLowPassRun : ℕ → List ℚ → ℚ → ℕ → List ℚ
  | 0, _, _, _ => []
  | n + 1, buffer, last, counter =>
    let current := (last + buffer.getD counter 0) / 2
    current :: specLowPassRun n (buffer.set counter current) current
      (if counter + 1 ≥ buffer.length then 0 else counter + 1)

/-- Spec-side comparison definition: the string sound computed with the
low-pass filter only (no feedback), from the same noise seed. -/
def specStringLowPassOnly (noise : ℕ → ℚ) (frequency : ℚ) (duration : ℕ)
    (sampleRate : ℚ) : List ℚ :=
  let buffer := (List.range (ringBufferSize frequency sampleRate).toNat).map noise
  specLowPassRun duration buffer (buffer.headD 0) 0

/-- The fixed 19-entry harmonic amplitude table of `Trumpet.getNote`
(src/instrument.py line 149). -/
def trumpetEnvelope : List ℚ :=
  [3.6, 2.825, 3, 2.688, 1.464, 1.520, 1.122, 0.940, 0.738, 0.495, 0.362,
    0.237, 0.154, 0.154, 0.101, 0.082, 0.054, 0.038, 0.036]

/-- Additive synthesis sum at time `t`: starting from partial index `k`,
accumulate `amplitude * sin(frequency * (k + 1) * 2 * pi * t)` over the
remaining amplitude table (src/instrument.py lines 152-154). -/
noncomputable def harmonicSum (frequency t : ℚ) : ℕ → List ℚ → ℝ
  | _, [] => 0
  | k, amplitude :: rest =>
    (amplitude : ℝ) * Real.sin ((frequency : ℝ) * ((k : ℝ) + 1) * 2 * Real.pi * (t : ℝ)) +
      harmonicSum frequency t (k + 1) rest

/-- The full 19-partial harmonic sum at time `t`. -/
noncomputable def trumpetHarmonic (frequency t : ℚ) : ℝ :=
  harmonicSum frequency t 0 trumpetEnvelope

/-- The unfiltered trumpet signal: the harmonic sum evaluated over
`np.linspace(0, duration / sampleRate, duration)`. -/
noncomputable def trumpetRaw (frequency : ℚ) (duration : ℕ) (sampleRate : ℚ) : List ℝ :=
  (linspace 0 ((duration : ℚ) / sampleRate) duration).map (trumpetHarmonic frequency)

/-- Filter coefficient `alpha = RC / (RC + 1 / sampleRate)` with
`RC = 1 / (pi * frequency * 32)` (src/instrument.py lines 157-158). -/
noncomputable def trumpetAlpha (frequency sampleRate : ℚ) : ℝ :=
  (1 / (Real.pi * (frequency : ℝ) * 32)) /
    (1 / (Real.pi * (frequency : ℝ) * 32) + 1 / (sampleRate : ℝ))

/-- Tail of the single-pole high-pass filter:
`out[i] = alpha * (out[i-1] + in[i] - in[i-1])`, given the previous output
and previous input (src/instrument.py line 162). -/
def highPassAux {α : Type} [Field α] (alpha : α) : α → α → List α → List α
  | _, _, [] => []
  | prevOut, prevIn, x :: xs =>
    let y := alpha * (prevOut + x - prevIn)
    y :: highPassAux alpha y x xs

/-- The high-pass filter of src/instrument.py lines 159-163: the first
output sample is seeded with the first input sample. -/
def highPass {α : Type} [Field α] (alpha : α) : List α → List α
  | [] => []
  | x :: xs => x :: highPassAux alpha x x xs

/-- The high-pass-filtered harmonic sum (the trumpet signal before the
ADSR stage). -/
noncomputable def trumpetFiltered (frequency : ℚ) (duration : ℕ) (sampleRate : ℚ) : List ℝ :=
  highPass (trumpetAlpha frequency sampleRate) (trumpetRaw frequency duration sampleRate)

/-- `attackLength = int(0.075 * sampleRate)` (src/instrument.py line 166). -/
def attackLength (sampleRate : ℚ) : ℕ := (ratTrunc (0.075 * sampleRate)).toNat

/-- `decayLength = int(0.3 * sampleRate)` (src/instrument.py line 167). -/
def decayLength (sampleRate : ℚ) : ℕ := (ratTrunc (0.3 * sampleRate)).toNat

/-- `releaseLength = int(0.2 * sampleRate)` (src/instrument.py line 168). -/
def releaseLength (sampleRate : ℚ) : ℕ := (ratTrunc (0.2 * sampleRate)).toNat

/-- `sustainLength = duration - attackLength - decayLength - releaseLength`
(src/instrument.py line 169); may be negative. -/
def sustainLength (duration : ℕ) (sampleRate : ℚ) : ℤ :=
  (duration : ℤ) - attackLength sampleRate - decayLength sampleRate - releaseLength sampleRate

/-- The piecewise-linear ADSR curve of src/instrument.py lines 175-178
(`peak = 0.1`, sustain level `0.1 * 0.8`), built by successive appends. -/
def trumpetAdsr (duration : ℕ) (sampleRate : ℚ) : List ℚ :=
  ((linspace 0 0.1 (attackLength sampleRate) ++
        linspace 0.1 (0.1 * 0.8) (decayLength sampleRate)) ++
      List.replicate (sustainLength duration sampleRate).toNat (0.1 * 0.8)) ++
    linspace (0.1 * 0.8) 0 (releaseLength sampleRate)

/-- The sample list returned by `Trumpet.getNote` when no exception occurs:
the filtered harmonic sum, multiplied pointwise by the ADSR curve when
`sustainLength >= 0` and returned unscaled otherwise
(src/instrument.py lines 171-182). -/
noncomputable def trumpetSignal (frequency : ℚ) (duration : ℕ) (sampleRate : ℚ) : List ℝ :=
  if 0 ≤ sustainLength duration sampleRate then
    List.zipWith (fun (s : ℝ) (e : ℚ) => s * (e : ℝ))
      (trumpetFiltered frequency duration sampleRate) (trumpetAdsr duration sampleRate)
  else trumpetFiltered frequency duration sampleRate

/-- `Trumpet.getNote(frequency, duration, sampleRate)`
(src/instrument.py lines 135-182).  `sampleRate = 0` raises
`ZeroDivisionError` computing `duration / sampleRate`; `frequency = 0`
raises `ZeroDivisionError` computing `RC`; `duration = 0` raises
`IndexError` at `newSamples[0] = samples[0]`. -/
noncomputable def Trumpet.getNote (frequency : ℚ) (duration : ℕ) (sampleRate : ℚ) :
    Except String (List ℝ) :=
  if sampleRate = 0 then Except.error "ZeroDivisionError"
  else if frequency = 0 then Except.error "ZeroDivisionError"
  else if duration = 0 then Except.error "IndexError"
  else Except.ok (trumpetSignal frequency duration sampleRate)

/-- Whether an `Except` value is a normal return. -/
def isOkB {ε α : Type} : Except ε α → Bool
  | Except.ok _ => true
  | Except.error _ => false

/-- An all-zero noise seed, used to instantiate concrete examples. -/
def zeroNoise : ℕ → ℚ := fun _ => 0

/-- An all-one noise seed, used to instantiate concrete examples. -/
def oneNoise : ℕ → ℚ := fun _ => 1

/-! ### Helper lemmas -/

lemma linspace_length (start stop : ℚ) (num : ℕ) : (linspace start stop num).length = num := by
  unfold linspace
  split <;> rw [List.length_map, List.length_range]

lemma highPassAux_length {α : Type} [Field α] (alpha : α) (prevOut prevIn : α) (l : List α) :
    (highPassAux alpha prevOut prevIn l).length = l.length := by
  induction l generalizing prevOut prevIn with
  | nil => rfl
  | cons x xs ih => simp [highPassAux, ih]

lemma highPass_length {α : Type} [Field α] (alpha : α) (l : List α) :
    (highPass alpha l).length = l.length := by
  cases l with
  | nil => rfl
  | cons x xs => simp [highPass, highPassAux_length]

lemma ksRun_length (n : ℕ) (s : KSState) : (ksRun n s).length = n := by
  induction n generalizing s with
  | zero => rfl
  | succ m ih => simp [ksRun, ih]

lemma stringRun_length (noise : ℕ → ℚ) (frequency : ℚ) (duration : ℕ) (sampleRate : ℚ) :
    (stringRun noise frequency duration sampleRate).length = duration := by
  unfold stringRun
  exact ksRun_length _ _

lemma trumpetRaw_length (frequency : ℚ) (duration : ℕ) (sampleRate : ℚ) :
    (trumpetRaw frequency duration sampleRate).length = duration := by
  unfold trumpetRaw
  simp [linspace_length]

lemma trumpetFiltered_length (frequency : ℚ) (duration : ℕ) (sampleRate : ℚ) :
    (trumpetFiltered frequency duration sampleRate).length = duration := by
  unfold trumpetFiltered
  rw [highPass_length, trumpetRaw_length]

lemma trumpetAdsr_length (duration : ℕ) (sampleRate : ℚ)
    (h : 0 ≤ sustainLength duration sampleRate) :
    (trumpetAdsr duration sampleRate).length = duration := by
  unfold trumpetAdsr
  simp only [List.length_append, linspace_length, List.length_replicate]
  unfold sustainLength at h ⊢
  omega

lemma trumpetSignal_length (frequency : ℚ) (duration : ℕ) (sampleRate : ℚ) :
    (trumpetSignal frequency duration sampleRate).length = duration := by
  unfold trumpetSignal
  by_cases h : 0 ≤ sustainLength duration sampleRate
  · rw [if_pos h, List.length_zipWith, trumpetFiltered_length, trumpetAdsr_length _ _ h,
      min_self]
  · rw [if_neg h]
    exact trumpetFiltered_length _ _ _

/-- C1: for every frequency > 0, duration ≥ 0 and sampleRate > 0, each
generator's output, whenever the call returns normally, has exactly
`duration` samples: the `Beep` output list has length `duration`, and the
`AcousticGuitar` and `Trumpet` results, mapped through `List.length`,
agree with the constant-`duration` map (so any `ok` payload has length
`duration`). -/
theorem getNote_length_eq_duration (noise : ℕ → ℚ) (frequency sampleRate : ℚ) (duration : ℕ)
    (hf : 0 < frequency) (hr : 0 < sampleRate) :
    (Beep.getNote frequency duration sampleRate).length = duration ∧
    Except.map List.length (AcousticGuitar.getNote noise frequency duration sampleRate) =
      Except.map (fun _ => duration) (AcousticGuitar.getNote noise frequency duration sampleRate) ∧
    Except.map List.length (Trumpet.getNote frequency duration sampleRate) =
      Except.map (fun _ => duration) (Trumpet.getNote frequency duration sampleRate) := by
  refine ⟨?_, ?_, ?_⟩
  · unfold Beep.getNote
    simp [linspace_length]
  · unfold AcousticGuitar.getNote AcousticGuitar.getBaseStringSound
    split
    · rfl
    · split
      · rfl
      · split
        · rfl
        · simp [Except.map, stringRun_length]
  · unfold Trumpet.getNote
    split
    · rfl
    · split
      · rfl
      · split
        · rfl
        · simp [Except.map, trumpetSignal_length]

/-- Witness for C1 at frequency 440, duration 3, sampleRate 44100. -/
theorem getNote_length_eq_duration_witness :
    (Beep.getNote 440 3 44100).length = 3 :=
  (getNote_length_eq_duration zeroNoise 440 44100 3 (by norm_num) (by norm_num)).1

lemma getD_map_at {α β : Type} (f : α → β) (l : List α) (i : ℕ) (dA : α) (dB : β)
    (hi : i < l.length) : (l.map f).getD i dB = f (l.getD i dA) := by
  rw [List.getD_eq_getElem _ _ (by simpa using hi), List.getD_eq_getElem _ _ hi,
    List.getElem_map]

lemma linspace_getD (start stop : ℚ) (num i : ℕ) (h2 : 2 ≤ num) (hi : i < num) :
    (linspace start stop num).getD i 0 =
      start + (stop - start) * (i : ℚ) / ((num : ℚ) - 1) := by
  unfold linspace
  rw [if_neg (by omega)]
  rw [getD_map_at _ _ _ 0 _ (by simpa using hi), List.getD_eq_getElem _ _ (by simpa using hi),
    List.getElem_range]

/-- C2 is false as stated: at frequency 1, duration 2, sampleRate 4, the
time axis is `np.linspace(0, 1/2, 2) = [0, 1/2]` (endpoint included), so
sample 1 is `sin(pi) = 0`, while the claim's formula
`sin(2*pi*frequency*i/sampleRate)` gives `sin(pi/2) = 1`. -/
theorem beep_time_axis_counterexample :
    ¬ ((Beep.getNote 1 2 4).getD 1 0 = Real.sin (2 * Real.pi * 1 * 1 / 4)) := by
  have hval : (Beep.getNote 1 2 4).getD 1 0 = Real.sin Real.pi := by
    unfold Beep.getNote
    rw [getD_map_at _ _ _ 0 _ (by rw [linspace_length]; norm_num)]
    rw [linspace_getD 0 _ 2 1 (by norm_num) (by norm_num)]
    congr 1
    push_cast
    ring
  rw [hval, Real.sin_pi]
  have hone : Real.sin (2 * Real.pi * 1 * 1 / 4) = 1 := by
    have harg : 2 * Real.pi * 1 * 1 / 4 = Real.pi / 2 := by ring
    rw [harg, Real.sin_pi_div_two]
  rw [hone]
  norm_num

/-- C2 (amended): the time axis built by `np.linspace(0, duration/sampleRate,
duration)` includes the right endpoint, so for `duration ≥ 2` the step is
`duration / ((duration - 1) * sampleRate)` and sample `i` equals
`sin(2*pi*frequency * i*duration / ((duration-1)*sampleRate))`; the time
axis spans the closed interval `[0, duration/sampleRate]`. -/
theorem beep_time_axis_closed_interval (frequency sampleRate : ℚ) (duration i : ℕ)
    (hd : 2 ≤ duration) (hr : sampleRate ≠ 0) (hi : i < duration) :
    (Beep.getNote frequency duration sampleRate).getD i 0 =
      Real.sin ((frequency : ℝ) * 2 * Real.pi *
        ((i : ℝ) * (duration : ℝ) / (((duration : ℝ) - 1) * (sampleRate : ℝ)))) := by
  unfold Beep.getNote
  rw [getD_map_at _ _ _ 0 _ (by rw [linspace_length]; exact hi)]
  rw [linspace_getD 0 _ duration i hd hi]
  congr 1
  have hd1 : ((duration : ℝ) - 1) ≠ 0 := by
    have h2 : (2 : ℝ) ≤ (duration : ℝ) := by exact_mod_cast hd
    nlinarith
  have hr' : (sampleRate : ℝ) ≠ 0 := by exact_mod_cast hr
  push_cast
  field_simp
  ring

/-- Witness for the amended C2 at frequency 1, duration 2, sampleRate 4,
index 1: the sample is `sin(pi)`. -/
theorem beep_time_axis_closed_interval_witness :
    (Beep.getNote 1 2 4).getD 1 0 = Real.sin Real.pi := by
  have h := beep_time_axis_closed_interval 1 4 2 1 (by norm_num) (by norm_num) (by norm_num)
  rw [h]
  congr 1
  push_cast
  ring

/-- C3 is false as stated: frequency 2 > 0, duration 0 ≥ 0 and
sampleRate 1 > 0 is a combination with `frequency ≠ 0` for which
`getBaseStringSound` still raises: `int(sampleRate / frequency) = 0`, the
noise buffer is empty and `buffer[0]` raises `IndexError`. -/
theorem string_large_frequency_raises_counterexample :
    (0:ℚ) < 2 ∧ (0:ℚ) < 1 ∧
      AcousticGuitar.getBaseStringSound zeroNoise 2 0 1 = Except.error "IndexError" := by
  refine ⟨by norm_num, by norm_num, ?_⟩
  have hsize : ringBufferSize 2 1 = 0 := by
    unfold ringBufferSize ratTrunc
    rw [if_pos (by norm_num)]
    norm_num
  unfold AcousticGuitar.getBaseStringSound
  rw [hsize]
  norm_num

/-- C3 (amended): for frequency > 0 and sampleRate > 0, the String
Generator returns normally exactly when `frequency ≤ sampleRate`; when
`sampleRate / frequency < 1` the truncated ring-buffer size is 0 and
`buffer[0]` raises `IndexError`, so the degenerate-but-defined behavior of
the claim only covers ring-buffer size exactly 1, not size 0. -/
theorem string_normal_return_iff (noise : ℕ → ℚ) (frequency sampleRate : ℚ) (duration : ℕ)
    (hf : 0 < frequency) (hr : 0 < sampleRate) :
    isOkB (AcousticGuitar.getBaseStringSound noise frequency duration sampleRate) = true ↔
      frequency ≤ sampleRate := by
  have hq : 0 ≤ sampleRate / frequency := le_of_lt (div_pos hr hf)
  have hsize : ringBufferSize frequency sampleRate = ⌊sampleRate / frequency⌋ := by
    unfold ringBufferSize ratTrunc
    rw [if_pos hq]
  have hnn : (0:ℤ) ≤ ⌊sampleRate / frequency⌋ := Int.floor_nonneg.mpr hq
  unfold AcousticGuitar.getBaseStringSound
  rw [if_neg (ne_of_gt hf), hsize, if_neg (by omega)]
  by_cases hz : ⌊sampleRate / frequency⌋ = 0
  · rw [if_pos hz]
    simp only [isOkB, Bool.false_eq_true, false_iff]
    intro hle
    have h1 : (1:ℤ) ≤ ⌊sampleRate / frequency⌋ := by
      rw [Int.le_floor]
      push_cast
      rw [one_le_div hf]
      exact hle
    omega
  · rw [if_neg hz]
    simp only [isOkB, true_iff]
    have h1 : (1:ℤ) ≤ ⌊sampleRate / frequency⌋ := by omega
    rw [Int.le_floor] at h1
    push_cast at h1
    rw [one_le_div hf] at h1
    exact h1

/-- Witness for the amended C3 at frequency 1, duration 3, sampleRate 4. -/
theorem string_normal_return_iff_witness :
    isOkB (AcousticGuitar.getBaseStringSound zeroNoise 1 3 4) = true ↔ (1:ℚ) ≤ 4 :=
  string_normal_return_iff zeroNoise 1 4 3 (by norm_num) (by norm_num)

/-- C4 is false as stated: at frequency 2, sampleRate 3 the code passes
`int(3 / 2) = 1` to `np.random.standard_normal`, while
`round(3 / 2) = 2`. -/
theorem ringBufferSize_round_counterexample :
    ¬ (ringBufferSize 2 3 = round ((3:ℚ) / 2)) := by
  have h1 : ringBufferSize 2 3 = 1 := by
    unfold ringBufferSize ratTrunc
    rw [if_pos (by norm_num)]
    norm_num
  have h2 : round ((3:ℚ) / 2) = 2 := by norm_num [round_eq]
  rw [h1, h2]
  norm_num

/-- C4 (amended): for frequency > 0 and sampleRate ≥ 0 the ring buffer is
initialized with `int(sampleRate / frequency)` values, i.e. the quotient
truncated toward zero (here the floor), not rounded to nearest. -/
theorem ringBufferSize_eq_floor (frequency sampleRate : ℚ)
    (hf : 0 < frequency) (hr : 0 ≤ sampleRate) :
    ringBufferSize frequency sampleRate = ⌊sampleRate / frequency⌋ := by
  unfold ringBufferSize ratTrunc
  rw [if_pos (div_nonneg hr (le_of_lt hf))]

/-- Witness for the amended C4 at frequency 2, sampleRate 3. -/
theorem ringBufferSize_eq_floor_witness :
    ringBufferSize 2 3 = ⌊(3:ℚ) / 2⌋ :=
  ringBufferSize_eq_floor 2 3 (by norm_num) (by norm_num)

lemma ksRun_eq_specLowPassRun (n : ℕ) (s : KSState) (h : s.delayLine.length + n ≤ 200) :
    ksRun n s = specLowPassRun n s.buffer s.last s.counter := by
  induction n generalizing s with
  | zero => rfl
  | succ m ih =>
    have hne : ¬ (s.delayLine.length = 200) := by omega
    have hstep : ksStep s =
        ((s.last + s.buffer.getD s.counter 0) / 2,
          { buffer := s.buffer.set s.counter ((s.last + s.buffer.getD s.counter 0) / 2)
            last := (s.last + s.buffer.getD s.counter 0) / 2
            delayLine := s.delayLine ++ [(s.last + s.buffer.getD s.counter 0) / 2]
            counter := if s.counter + 1 ≥ s.buffer.length then 0 else s.counter + 1 }) := by
      unfold ksStep
      simp only [if_neg hne]
    simp only [ksRun, hstep]
    rw [specLowPassRun]
    refine congrArg _ ?_
    rw [ih _ (by simp; omega)]

/-- C5: for `duration = 0` the String Generator's sample list is empty, and
for every `duration < 200` the 200-slot delay line never reaches capacity,
so the feedback/echo blending step is never executed: the computed samples
coincide with the spec-side definition `specStringLowPassOnly` in which
every output sample is the two-tap low-pass value `(last + buffer[c]) / 2`
alone. -/
theorem string_short_duration_no_feedback (noise : ℕ → ℚ) (frequency sampleRate : ℚ)
    (duration : ℕ) (hd : duration < 200) :
    stringRun noise frequency 0 sampleRate = [] ∧
    stringRun noise frequency duration sampleRate =
      specStringLowPassOnly noise frequency duration sampleRate := by
  constructor
  · rfl
  · unfold stringRun specStringLowPassOnly
    exact ksRun_eq_specLowPassRun duration _ (by simp; omega)

/-- Witness for C5 at frequency 1, duration 5, sampleRate 4 with an
all-one noise seed. -/
theorem string_short_duration_no_feedback_witness :
    stringRun oneNoise 1 0 4 = [] ∧
    stringRun oneNoise 1 5 4 = specStringLowPassOnly oneNoise 1 5 4 :=
  string_short_duration_no_feedback oneNoise 1 4 5 (by norm_num)

lemma attackLength_44100 : attackLength 44100 = 3307 := by
  unfold attackLength ratTrunc
  have h : ⌊(0.075 * 44100 : ℚ)⌋ = 3307 := by norm_num
  rw [if_pos (by norm_num), h]
  rfl

lemma decayLength_44100 : decayLength 44100 = 13230 := by
  unfold decayLength ratTrunc
  have h : ⌊(0.3 * 44100 : ℚ)⌋ = 13230 := by norm_num
  rw [if_pos (by norm_num), h]
  rfl

lemma releaseLength_44100 : releaseLength 44100 = 8820 := by
  unfold releaseLength ratTrunc
  have h : ⌊(0.2 * 44100 : ℚ)⌋ = 8820 := by norm_num
  rw [if_pos (by norm_num), h]
  rfl

lemma sustainLength_1000_44100 : sustainLength 1000 44100 = -24357 := by
  unfold sustainLength
  rw [attackLength_44100, decayLength_44100, releaseLength_44100]
  norm_num

/-- C6: when the requested duration is shorter than attack+decay+release
samples (`sustainLength < 0`), the envelope stage is skipped entirely and
`Trumpet.getNote` returns the high-pass-filtered harmonic sum with no
envelope scaling applied to any sample. -/
theorem trumpet_short_duration_no_envelope (frequency sampleRate : ℚ) (duration : ℕ)
    (hf : 0 < frequency) (hr : 0 < sampleRate) (hd : 0 < duration)
    (hshort : sustainLength duration sampleRate < 0) :
    Trumpet.getNote frequency duration sampleRate =
      Except.ok (trumpetFiltered frequency duration sampleRate) := by
  unfold Trumpet.getNote
  rw [if_neg (ne_of_gt hr), if_neg (ne_of_gt hf), if_neg (by omega)]
  unfold trumpetSignal
  rw [if_neg (by omega)]

/-- Witness for C6 at frequency 440, duration 1000, sampleRate 44100
(attack+decay+release = 25357 samples > 1000). -/
theorem trumpet_short_duration_no_envelope_witness :
    Trumpet.getNote 440 1000 44100 = Except.ok (trumpetFiltered 440 1000 44100) :=
  trumpet_short_duration_no_envelope 440 44100 1000 (by norm_num) (by norm_num) (by norm_num)
    (by rw [sustainLength_1000_44100]; norm_num)

lemma harmonicSum_t_zero (frequency : ℚ) (k : ℕ) (l : List ℚ) :
    harmonicSum frequency 0 k l = 0 := by
  induction l generalizing k with
  | nil => rfl
  | cons a rest ih => simp [harmonicSum, ih]

lemma trumpetHarmonic_t_zero (frequency : ℚ) : trumpetHarmonic frequency 0 = 0 :=
  harmonicSum_t_zero frequency 0 trumpetEnvelope

lemma linspace_getD_zero (start stop : ℚ) (num : ℕ) (h : 0 < num) :
    (linspace start stop num).getD 0 0 = start := by
  unfold linspace
  by_cases h1 : num ≤ 1
  · rw [if_pos h1, getD_map_at _ _ _ 0 _ (by simpa using h)]
  · rw [if_neg h1, getD_map_at _ _ _ 0 _ (by simpa using h),
      List.getD_eq_getElem _ _ (by simpa using h), List.getElem_range]
    norm_num

lemma trumpetRaw_getD_zero (frequency : ℚ) (duration : ℕ) (sampleRate : ℚ)
    (hd : 0 < duration) :
    (trumpetRaw frequency duration sampleRate).getD 0 0 = 0 := by
  unfold trumpetRaw
  rw [getD_map_at _ _ _ 0 _ (by rw [linspace_length]; exact hd)]
  rw [linspace_getD_zero _ _ _ hd]
  exact trumpetHarmonic_t_zero frequency

lemma highPass_getD_zero {α : Type} [Field α] (alpha : α) (l : List α) :
    (highPass alpha l).getD 0 0 = l.getD 0 0 := by
  cases l with
  | nil => rfl
  | cons x xs => rfl

lemma trumpetFiltered_getD_zero (frequency : ℚ) (duration : ℕ) (sampleRate : ℚ)
    (hd : 0 < duration) :
    (trumpetFiltered frequency duration sampleRate).getD 0 0 = 0 := by
  unfold trumpetFiltered
  rw [highPass_getD_zero, trumpetRaw_getD_zero _ _ _ hd]

lemma getD_zipWith_at {α β γ : Type} (g : α → β → γ) (l1 : List α) (l2 : List β) (i : ℕ)
    (d1 : α) (d2 : β) (d3 : γ) (h1 : i < l1.length) (h2 : i < l2.length) :
    (List.zipWith g l1 l2).getD i d3 = g (l1.getD i d1) (l2.getD i d2) := by
  rw [List.getD_eq_getElem _ _ (by rw [List.length_zipWith]; omega),
    List.getD_eq_getElem _ _ h1, List.getD_eq_getElem _ _ h2, List.getElem_zipWith]

/-- C10: for frequency > 0, sampleRate > 0 and duration ≥ 1, `Trumpet.getNote`
returns normally and its first output sample is exactly 0 — in both the
enveloped and the short-duration fallback path — because the harmonic sum
at t = 0 is a sum of sin 0 terms, the high-pass filter seeds its output
with that first input sample, and the envelope (when applied) only
multiplies it. -/
theorem trumpet_first_sample_zero (frequency sampleRate : ℚ) (duration : ℕ)
    (hf : 0 < frequency) (hr : 0 < sampleRate) (hd : 1 ≤ duration) :
    Trumpet.getNote frequency duration sampleRate =
      Except.ok (trumpetSignal frequency duration sampleRate) ∧
    (trumpetSignal frequency duration sampleRate).getD 0 0 = 0 := by
  constructor
  · unfold Trumpet.getNote
    rw [if_neg (ne_of_gt hr), if_neg (ne_of_gt hf), if_neg (by omega)]
  · unfold trumpetSignal
    by_cases hs : 0 ≤ sustainLength duration sampleRate
    · rw [if_pos hs]
      rw [getD_zipWith_at _ _ _ 0 0 0 0 (by rw [trumpetFiltered_length]; omega)
        (by rw [trumpetAdsr_length _ _ hs]; omega)]
      rw [trumpetFiltered_getD_zero _ _ _ (by omega)]
      exact zero_mul _
    · rw [if_neg hs]
      exact trumpetFiltered_getD_zero _ _ _ (by omega)

/-- Witness for C10: a 2-second note at 44100 Hz. -/
theorem trumpet_first_sample_zero_witness :
    Trumpet.getNote 440 88200 44100 = Except.ok (trumpetSignal 440 88200 44100) ∧
    (trumpetSignal 440 88200 44100).getD 0 0 = 0 :=
  trumpet_first_sample_zero 440 44100 88200 (by norm_num) (by norm_num) (by norm_num)

lemma getD_append_left_at {α : Type} (l1 l2 : List α) (i : ℕ) (d : α) (h : i < l1.length) :
    (l1 ++ l2).getD i d = l1.getD i d := by
  rw [List.getD_eq_getElem _ _ (by rw [List.length_append]; omega),
    List.getD_eq_getElem _ _ h, List.getElem_append_left h]

lemma getD_append_right_at {α : Type} (l1 l2 : List α) (i : ℕ) (d : α)
    (h : l1.length ≤ i) (h2 : i - l1.length < l2.length) :
    (l1 ++ l2).getD i d = l2.getD (i - l1.length) d := by
  rw [List.getD_eq_getElem _ _ (by rw [List.length_append]; omega),
    List.getD_eq_getElem _ _ h2, List.getElem_append_right h]

lemma trumpetAdsr_getD_zero (duration : ℕ) (sampleRate : ℚ)
    (ha : 1 ≤ attackLength sampleRate) :
    (trumpetAdsr duration sampleRate).getD 0 0 = 0 := by
  unfold trumpetAdsr
  rw [getD_append_left_at _ _ _ _
    (by simp only [List.length_append, linspace_length, List.length_replicate]; omega)]
  rw [getD_append_left_at _ _ _ _
    (by simp only [List.length_append, linspace_length]; omega)]
  rw [getD_append_left_at _ _ _ _ (by rw [linspace_length]; omega)]
  exact linspace_getD_zero _ _ _ (by omega)

lemma trumpetAdsr_getD_plateau (duration : ℕ) (sampleRate : ℚ) (i : ℕ)
    (hs : 0 ≤ sustainLength duration sampleRate)
    (hi1 : attackLength sampleRate + decayLength sampleRate ≤ i)
    (hi2 : i + releaseLength sampleRate < duration) :
    (trumpetAdsr duration sampleRate).getD i 0 = 0.1 * 0.8 := by
  have hs' : attackLength sampleRate + decayLength sampleRate + releaseLength sampleRate ≤
      duration := by
    unfold sustainLength at hs
    omega
  have hS : (sustainLength duration sampleRate).toNat =
      duration - attackLength sampleRate - decayLength sampleRate - releaseLength sampleRate := by
    unfold sustainLength
    omega
  unfold trumpetAdsr
  rw [getD_append_left_at _ _ _ _
    (by simp only [List.length_append, linspace_length, List.length_replicate, hS]; omega)]
  rw [getD_append_right_at _ _ _ _
    (by simp only [List.length_append, linspace_length]; omega)
    (by simp only [List.length_append, linspace_length, List.length_replicate, hS]; omega)]
  rw [List.getD_eq_getElem _ _
    (by simp only [List.length_append, linspace_length, List.length_replicate, hS]; omega)]
  exact List.getElem_replicate _ _

/-- C7: with a duration long enough that the sustain length is nonnegative
and at least one attack sample exists, the first sample of the
envelope-scaled output is exactly 0, and every sample whose index falls in
the sustain plateau equals the high-pass-filtered value at that index
scaled by exactly 0.08 (peak 0.1 times sustain level factor 0.8). -/
theorem trumpet_envelope_first_and_plateau (frequency sampleRate : ℚ) (duration i : ℕ)
    (hf : 0 < frequency) (hr : 0 < sampleRate)
    (ha : 1 ≤ attackLength sampleRate)
    (hs : attackLength sampleRate + decayLength sampleRate + releaseLength sampleRate ≤ duration)
    (hi1 : attackLength sampleRate + decayLength sampleRate ≤ i)
    (hi2 : i + releaseLength sampleRate < duration) :
    (trumpetSignal frequency duration sampleRate).getD 0 0 = 0 ∧
    (trumpetSignal frequency duration sampleRate).getD i 0 =
      (trumpetFiltered frequency duration sampleRate).getD i 0 * (0.08 : ℝ) := by
  have hsus : 0 ≤ sustainLength duration sampleRate := by
    unfold sustainLength
    omega
  constructor
  · unfold trumpetSignal
    rw [if_pos hsus]
    rw [getD_zipWith_at _ _ _ 0 0 0 0 (by rw [trumpetFiltered_length]; omega)
      (by rw [trumpetAdsr_length _ _ hsus]; omega)]
    rw [trumpetAdsr_getD_zero _ _ ha]
    simp
  · unfold trumpetSignal
    rw [if_pos hsus]
    rw [getD_zipWith_at _ _ _ i 0 0 0 (by rw [trumpetFiltered_length]; omega)
      (by rw [trumpetAdsr_length _ _ hsus]; omega)]
    rw [trumpetAdsr_getD_plateau _ _ _ hsus hi1 hi2]
    norm_num

/-- Witness for C7: a 2-second note at 44100 Hz; index 47958 is the
midpoint of the sustain plateau `[16537, 79380)`. -/
theorem trumpet_envelope_first_and_plateau_witness :
    (trumpetSignal 440 88200 44100).getD 0 0 = 0 ∧
    (trumpetSignal 440 88200 44100).getD 47958 0 =
      (trumpetFiltered 440 88200 44100).getD 47958 0 * (0.08 : ℝ) :=
  trumpet_envelope_first_and_plateau 440 44100 88200 47958 (by norm_num) (by norm_num)
    (by rw [attackLength_44100]; norm_num)
    (by rw [attackLength_44100, decayLength_44100, releaseLength_44100]; norm_num)
    (by rw [attackLength_44100, decayLength_44100]; norm_num)
    (by rw [releaseLength_44100]; norm_num)

/-- C8: `duplicateChannel` preserves the length of the mono signal and, at
every index, both stereo channels equal the mono sample divided by 2. -/
theorem duplicateChannel_halves (channel : List ℚ) (i : ℕ) (hi : i < channel.length) :
    (Instrument.duplicateChannel channel).length = channel.length ∧
    ((Instrument.duplicateChannel channel).getD i (0, 0)).1 = channel.getD i 0 / 2 ∧
    ((Instrument.duplicateChannel channel).getD i (0, 0)).2 = channel.getD i 0 / 2 := by
  refine ⟨?_, ?_, ?_⟩
  · unfold Instrument.duplicateChannel
    rw [List.length_map]
  · unfold Instrument.duplicateChannel
    rw [getD_map_at _ _ _ 0 _ hi]
  · unfold Instrument.duplicateChannel
    rw [getD_map_at _ _ _ 0 _ hi]

/-- Witness for C8 on the mono signal `[1, 3]` at index 1. -/
theorem duplicateChannel_halves_witness :
    (Instrument.duplicateChannel [1, 3]).length = ([1, 3] : List ℚ).length ∧
    ((Instrument.duplicateChannel [1, 3]).getD 1 (0, 0)).1 = ([1, 3] : List ℚ).getD 1 0 / 2 ∧
    ((Instrument.duplicateChannel [1, 3]).getD 1 (0, 0)).2 = ([1, 3] : List ℚ).getD 1 0 / 2 :=
  duplicateChannel_halves [1, 3] 1 (by norm_num)

/-- C9: each generator is deterministic: two invocations with identical
arguments — and, for the String Generator, the identical noise source —
produce identical outputs.  In this embedding every generator is a pure
function of its arguments (the String Generator's random state is the
explicit `noise` argument), so the two-run property holds definitionally. -/
theorem getNote_deterministic (noise : ℕ → ℚ) (frequency sampleRate : ℚ) (duration : ℕ) :
    Beep.getNote frequency duration sampleRate = Beep.getNote frequency duration sampleRate ∧
    Trumpet.getNote frequency duration sampleRate =
      Trumpet.getNote frequency duration sampleRate ∧
    AcousticGuitar.getNote noise frequency duration sampleRate =
      AcousticGuitar.getNote noise frequency duration sampleRate :=
  ⟨rfl, rfl, rfl⟩

end InstrumentChanger
